import Mathlib

/-!
Shallow embedding of the ingestion-consistency and address-resolution engine
of the simpleRag repository, together with theorems settling the claims
C1..C10 about its specification.

The embedding follows the Python sources:
  * `src/ingestion.py`   — supersession engine (`ingest_prtn`, `insert_new_policy`)
  * `src/retries.py`     — `retry`, `IngestionProgressRepo`, `ingest_one_file`
  * `src/sql-explain.py` — point / range address query builder semantics
  * `src/ipcatClient.py` — `IPCatalogClient.request`
  * `src/policyorchestrator.py` — `PolicyOrchestrator.ensure_ingested`

Databases are modelled as explicit lists of rows, each autocommitted SQL
statement as one state transition, and randomness (uuid4) as an explicitly
passed fresh identifier.
-/

namespace Ingestion

/-- Digest function standing for `hashlib.sha256(text.encode()).hexdigest()`
(`src/ingestion.py`, `sha256`).  The ingestion logic only ever compares
digests for equality, and SHA-256 is treated as collision-free on the inputs
in play, so the digest is modelled as an injective function of the hashed
text; the particular bytes of the digest are irrelevant to every claim. -/
def sha256 (text : String) : String := text

/-- Value of one hexadecimal digit character, `none` on a non-hex character. -/
def hexDigitVal (c : Char) : Option Nat :=
  if c.isDigit then some (c.toNat - 48)
  else if 'a' ≤ c ∧ c ≤ 'f' then some (c.toNat - 87)
  else if 'A' ≤ c ∧ c ≤ 'F' then some (c.toNat - 55)
  else none

/-- Accumulate hex digits left to right; `none` on empty input or any bad digit. -/
def parseHexDigits (cs : List Char) : Option Nat :=
  if cs = [] then none
  else cs.foldl (fun acc c => acc.bind fun n => (hexDigitVal c).map fun d => 16 * n + d) (some 0)

/-- `hex_to_dec` from `src/ingestion.py`: `int(val, 16)` on a truthy string
(optional `0x`/`0X` prefix), `None` on `None`, the empty string, or a parse
failure. -/
def hex_to_dec (val : Option String) : Option Int :=
  match val with
  | none => none
  | some s =>
    if s = "" then none
    else
      let cs := s.data
      let cs := if cs.take 2 = ['0', 'x'] ∨ cs.take 2 = ['0', 'X'] then cs.drop 2 else cs
      (parseHexDigits cs).map Int.ofNat

/-- `normalize_list` from `src/ingestion.py`: split a comma-separated string,
strip whitespace, drop empty items; `[]` on `None` or the empty string.
Note: the items are NOT sorted. -/
def normalize_list (val : Option String) : List String :=
  match val with
  | none => []
  | some s =>
    if s = "" then []
    else ((s.splitOn ",").map String.trim).filter (fun v => v ≠ "")

/-- One parsed `<PRTn>` element (`parse_prtn` in `src/ingestion.py`). -/
structure Prtn where
  rg_index : Int
  profile : Option String
  order : Int
  locks : Option String
  confirmed : Bool
  start_hex : Option String
  end_hex : Option String
  rdomains : List String
  wdomains : List String
  rvmids : List String
  wvmids : List String
  raw_xml : String
deriving DecidableEq, Repr

/-- One row of the `policy_chunks` table (columns of the INSERT in
`insert_new_policy`, `src/ingestion.py`). -/
structure PolicyRow where
  chunk_id : String
  project : String
  branch : String
  file_path : Option String
  policy_version : String
  mpu_name : String
  rg_index : Int
  profile : Option String
  start_dec : Option Int
  end_dec : Option Int
  start_hex : Option String
  end_hex : Option String
  rdomains : List String
  wdomains : List String
  rvmids : List String
  wvmids : List String
  static : Bool
  confirmed : Bool
  enabled : Bool
  raw_xml : String
  xml_hash : String
  is_active : Bool
  supersedes_chunk_id : Option String
  weaviate_object_id : String
deriving DecidableEq, Repr

/-- Payload stored in the Weaviate vector index (`insert_weaviate_vector`
call site in `insert_new_policy`). -/
structure WeaviateObj where
  chunk_text : String
  project : String
  mpu_name : String
  rg_index : Int
  profile : Option String
deriving DecidableEq, Repr

/-- Combined durable state: the Postgres `policy_chunks` table and the
Weaviate object store (keyed by uuid).  `pg.autocommit = True` in
`src/ingestion.py`, so each SQL statement commits on its own. -/
structure DB where
  policy_chunks : List PolicyRow
  weaviate : List (String × WeaviateObj)
deriving DecidableEq, Repr

/-- The empty database. -/
def DB.empty : DB := { policy_chunks := [], weaviate := [] }

/-- SQL `COALESCE(profile, '')`. -/
def coalesceEmpty : Option String → String
  | none => ""
  | some s => s

/-- The active-record lookup of `ingest_prtn` (`src/ingestion.py` lines
133-145): first `policy_chunks` row with matching `project`, `mpu_name`,
`rg_index`, `COALESCE(profile,'')` and `is_active = true`.  Note that the
key does NOT mention the start or end address. -/
def lookupActive (db : DB) (project mpu_name : String) (rg_index : Int)
    (profile : Option String) : Option PolicyRow :=
  db.policy_chunks.find? (fun r =>
    r.project == project && r.mpu_name == mpu_name && r.rg_index == rg_index &&
    coalesceEmpty r.profile == coalesceEmpty profile && r.is_active)

/-- `UPDATE policy_chunks SET is_active=false WHERE chunk_id=%s`. -/
def deactivateChunk (db : DB) (cid : String) : DB :=
  { db with policy_chunks :=
      db.policy_chunks.map (fun r => if r.chunk_id == cid then { r with is_active := false } else r) }

/-- `delete_weaviate_vector` (`src/ingestion.py`): delete the object stored
under `chunk_id`; a missing object is silently ignored. -/
def delete_weaviate_vector (db : DB) (cid : String) : DB :=
  { db with weaviate := db.weaviate.filter (fun kv => kv.1 ≠ cid) }

/-- `insert_weaviate_vector` (`src/ingestion.py`). -/
def insert_weaviate_vector (db : DB) (cid : String) (obj : WeaviateObj) : DB :=
  { db with weaviate := db.weaviate ++ [(cid, obj)] }

/-- Python rendering of an optional string inside an f-string. -/
def pyStr : Option String → String
  | none => "None"
  | some s => s

/-- The `chunk_text` assembled in `insert_new_policy`. -/
def chunkText (project mpu_name : String) (prtn : Prtn) : String :=
  "MPU: " ++ mpu_name ++ "\n" ++
  "Project: " ++ project ++ "\n" ++
  "Profile: " ++ pyStr prtn.profile ++ "\n" ++
  "RG Index: " ++ toString prtn.rg_index ++ "\n" ++
  "Start: " ++ pyStr prtn.start_hex ++ "\n" ++
  "End: " ++ pyStr prtn.end_hex ++ "\n" ++
  "Read Domains: " ++ String.intercalate "," prtn.rdomains ++ "\n" ++
  "Write Domains: " ++ String.intercalate "," prtn.wdomains ++ "\n"

/-- The row inserted by `insert_new_policy` (`src/ingestion.py` lines
195-241): note `is_active = true` and `weaviate_object_id = chunk_id`
("same ID for Weaviate"). -/
def newPolicyRow (project mpu_name : String) (prtn : Prtn)
    (xml_hash chunk_id : String) (supersedes : Option String) : PolicyRow :=
  { chunk_id := chunk_id
    project := project
    branch := "main"
    file_path := none
    policy_version := "v1.0"
    mpu_name := mpu_name
    rg_index := prtn.rg_index
    profile := prtn.profile
    start_dec := hex_to_dec prtn.start_hex
    end_dec := hex_to_dec prtn.end_hex
    start_hex := prtn.start_hex
    end_hex := prtn.end_hex
    rdomains := prtn.rdomains
    wdomains := prtn.wdomains
    rvmids := prtn.rvmids
    wvmids := prtn.wvmids
    static := false
    confirmed := prtn.confirmed
    enabled := true
    raw_xml := prtn.raw_xml
    xml_hash := xml_hash
    is_active := true
    supersedes_chunk_id := supersedes
    weaviate_object_id := chunk_id }

/-- The Weaviate object inserted by `insert_new_policy`. -/
def newWeaviateObj (project mpu_name : String) (prtn : Prtn) : WeaviateObj :=
  { chunk_text := chunkText project mpu_name prtn
    project := project
    mpu_name := mpu_name
    rg_index := prtn.rg_index
    profile := prtn.profile }

/-- First half of `insert_new_policy`: the (autocommitted) Postgres INSERT. -/
def insertPolicyRowOnly (db : DB) (project mpu_name : String) (prtn : Prtn)
    (xml_hash chunk_id : String) (supersedes : Option String) : DB :=
  { db with policy_chunks :=
      db.policy_chunks ++ [newPolicyRow project mpu_name prtn xml_hash chunk_id supersedes] }

/-- `insert_new_policy` (`src/ingestion.py`): Postgres INSERT of the new
active row, then the Weaviate insert under the same id. -/
def insert_new_policy (db : DB) (project mpu_name : String) (prtn : Prtn)
    (xml_hash chunk_id : String) (supersedes : Option String) : DB :=
  insert_weaviate_vector
    (insertPolicyRowOnly db project mpu_name prtn xml_hash chunk_id supersedes)
    chunk_id (newWeaviateObj project mpu_name prtn)

/-- Outcome of the supersession engine for one region (reported by the
print statements of `ingest_prtn`). -/
inductive Outcome
  | INSERTED_NEW
  | SKIPPED_NO_CHANGE
  | SUPERSEDED
deriving DecidableEq, Repr

/-- `ingest_prtn` (`src/ingestion.py` lines 127-181).  The fresh
`uuid.uuid4()` is passed in explicitly as `newChunkId`. -/
def ingest_prtn (db : DB) (project mpu_name : String) (prtn : Prtn)
    (newChunkId : String) : Outcome × DB :=
  let xml_hash := sha256 prtn.raw_xml
  match lookupActive db project mpu_name prtn.rg_index prtn.profile with
  | none =>
    (.INSERTED_NEW, insert_new_policy db project mpu_name prtn xml_hash newChunkId none)
  | some row =>
    if row.xml_hash == xml_hash then
      (.SKIPPED_NO_CHANGE, db)
    else
      let db1 := deactivateChunk db row.chunk_id
      let db2 := delete_weaviate_vector db1 row.chunk_id
      (.SUPERSEDED,
        insert_new_policy db2 project mpu_name prtn xml_hash newChunkId (some row.chunk_id))

/-- The sequence of durably committed states produced by one `ingest_prtn`
call (with `pg.autocommit = True` every SQL statement, and every Weaviate
call, commits separately; the final element is the state returned to the
caller).  The skip branch performs no write. -/
def ingest_prtn_commits (db : DB) (project mpu_name : String) (prtn : Prtn)
    (newChunkId : String) : List DB :=
  let xml_hash := sha256 prtn.raw_xml
  match lookupActive db project mpu_name prtn.rg_index prtn.profile with
  | none =>
    let dbIns := insertPolicyRowOnly db project mpu_name prtn xml_hash newChunkId none
    [dbIns, insert_weaviate_vector dbIns newChunkId (newWeaviateObj project mpu_name prtn)]
  | some row =>
    if row.xml_hash == xml_hash then []
    else
      let db1 := deactivateChunk db row.chunk_id
      let db2 := delete_weaviate_vector db1 row.chunk_id
      let db3 := insertPolicyRowOnly db2 project mpu_name prtn xml_hash newChunkId (some row.chunk_id)
      [db1, db2, db3,
       insert_weaviate_vector db3 newChunkId (newWeaviateObj project mpu_name prtn)]

/-- The logical identity key of a stored row, as used by the active-record
lookup: `(project, mpu_name, rg_index, COALESCE(profile,''))`. -/
def identKey (r : PolicyRow) : String × String × Int × String :=
  (r.project, r.mpu_name, r.rg_index, coalesceEmpty r.profile)

/-- The spec's invariant: at most one active row per identity key. -/
def atMostOneActive (db : DB) : Prop :=
  (db.policy_chunks.filter (fun r => r.is_active)).Pairwise (fun a b => identKey a ≠ identKey b)

instance (db : DB) : Decidable (atMostOneActive db) := by
  unfold atMostOneActive; infer_instance

/-- "Atomic from the caller's perspective": every durably committed state of
the call is either the initial state or the final state (no intermediate
state is ever committed/observable). -/
def callerAtomic (db : DB) (project mpu_name : String) (prtn : Prtn)
    (newChunkId : String) : Prop :=
  ∀ s ∈ ingest_prtn_commits db project mpu_name prtn newChunkId,
    s = db ∨ s = (ingest_prtn db project mpu_name prtn newChunkId).2

instance (db : DB) (p m : String) (prtn : Prtn) (cid : String) :
    Decidable (callerAtomic db p m prtn cid) := by
  unfold callerAtomic; infer_instance

/-- Concrete fixture: the region of spec §8 (`unit=U, idx=3, profile=TZ,
start=0x1000, end=0x2000`) with its raw XML serialization. -/
def cePrtn1 : Prtn :=
  { rg_index := 3, profile := some "TZ", order := 0, locks := none, confirmed := true,
    start_hex := some "0x1000", end_hex := some "0x2000",
    rdomains := ["apps", "modem"], wdomains := ["apps"], rvmids := [], wvmids := [],
    raw_xml := "<PRTn index=\"3\" profile=\"TZ\" start=\"0x1000\" end=\"0x2000\" rdomains=\"apps,modem\" wdomains=\"apps\"/>" }

/-- The database after ingesting `cePrtn1` into an empty store. -/
def ceDb1 : DB := (ingest_prtn DB.empty "p" "m" cePrtn1 "id1").2

/-- `cePrtn1` with only its start address moved to `0x1500` (spec §8
"identity change on move"); the raw payload changes accordingly. -/
def cePrtnMoved : Prtn :=
  { cePrtn1 with
      start_hex := some "0x1500"
      raw_xml := "<PRTn index=\"3\" profile=\"TZ\" start=\"0x1500\" end=\"0x2000\" rdomains=\"apps,modem\" wdomains=\"apps\"/>" }

/-- `cePrtn1` with only the order of its read-domain list flipped in the
source document; identity fields and addresses unchanged. -/
def cePrtnReordered : Prtn :=
  { cePrtn1 with
      rdomains := ["modem", "apps"]
      raw_xml := "<PRTn index=\"3\" profile=\"TZ\" start=\"0x1000\" end=\"0x2000\" rdomains=\"modem,apps\" wdomains=\"apps\"/>" }

end Ingestion

namespace Retries

/-- Result of one invocation of a fallible operation: the operation is
modelled as a function from the (1-based) attempt number to the outcome of
calling it on that attempt. -/
def Op (α : Type) := Nat → Except String α

/-- Loop body of `retry` from `src/retries.py`, with `fuel` remaining
iterations of `for attempt in range(1, retries + 1)`.  The result pairs the
returned value (`Except.ok none` models Python falling off the loop and
implicitly returning `None`; `Except.error e` models the `raise` on the
final attempt) with the number of times the operation was invoked. -/
def retryAux (op : Op α) (attempt : Nat) : Nat → Except String (Option α) × Nat
  | 0 => (.ok none, 0)
  | fuel + 1 =>
    match op attempt with
    | .ok a => (.ok (some a), 1)
    | .error e =>
      if fuel = 0 then (.error e, 1)
      else
        let r := retryAux op (attempt + 1) fuel
        (r.1, r.2 + 1)

/-- `retry(fn, retries, base_delay, label)` from `src/retries.py`.
`range(1, retries + 1)` performs `max 0 retries = retries.toNat` iterations;
the backoff sleeps and log lines have no effect on the modelled state. -/
def retry (op : Op α) (retries : Int) : Except String (Option α) × Nat :=
  retryAux op 1 retries.toNat

/-- `ingestion_progress.status` values (CHECK constraint in `src/retries.py`). -/
inductive Status
  | PENDING
  | IN_PROGRESS
  | DONE
  | FAILED
deriving DecidableEq, Repr

/-- One `ingestion_progress` row for the single document being modelled. -/
structure LedgerRow where
  status : Status
  last_chunk_index : Int
  error : Option String
deriving DecidableEq, Repr

/-- State of one document's ingestion: its ledger row (if any) plus a spy
recording, in order, the chunk indices handed to `ingest_single_chunk`
(each chunk processing is recorded once; the retry attempts inside one
chunk are collapsed, which is irrelevant to which chunks get processed). -/
structure LState where
  ledger : Option LedgerRow
  invocations : List Nat
deriving DecidableEq, Repr

/-- `IngestionProgressRepo.upsert` (`src/retries.py` lines 30-42): the
Python signature is `upsert(xml_path, status, last_chunk=-1, error=None)`
and the ON CONFLICT clause overwrites status, last_chunk_index AND error
with the passed values.  Callers that pass only a status therefore reset
`last_chunk_index` to `-1`. -/
def upsert (st : LState) (status : Status) (last_chunk : Int) (error : Option String) : LState :=
  { st with ledger := some { status := status, last_chunk_index := last_chunk, error := error } }

/-- `IngestionProgressRepo.update_chunk`: UPDATE of `last_chunk_index`
only (no-op when the row is absent). -/
def update_chunk (st : LState) (chunk_index : Int) : LState :=
  { st with ledger := st.ledger.map (fun row => { row with last_chunk_index := chunk_index }) }

/-- The per-chunk loop of `ingest_chunks` (`src/retries.py` lines 112-124)
over the listed chunk indices: skip chunks `<= last`, otherwise invoke
`ingest_single_chunk` under `retry`.  `failing idx = true` means chunk
`idx` fails all of its retry attempts, so the re-raised exception aborts
the loop (second component `some errorMessage`); otherwise the chunk
commits and `update_chunk` advances the checkpoint. -/
def ingestLoop (failing : Nat → Bool) (last : Int) :
    List Nat → LState → LState × Option String
  | [], st => (st, none)
  | idx :: rest, st =>
    if (idx : Int) ≤ last then ingestLoop failing last rest st
    else
      let st1 := { st with invocations := st.invocations ++ [idx] }
      if failing idx then (st1, some ("chunk " ++ toString idx ++ " failed"))
      else ingestLoop failing last rest (update_chunk st1 idx)

/-- `ingest_chunks` (`src/retries.py` lines 106-124): re-read the ledger to
find the resume point, then loop over chunks `0 .. nChunks-1`. -/
def ingest_chunks (failing : Nat → Bool) (nChunks : Nat) (st : LState) :
    LState × Option String :=
  let last : Int :=
    match st.ledger with
    | some row => row.last_chunk_index
    | none => -1
  ingestLoop failing last (List.range nChunks) st

/-- The body of `ingest_one_file` after the DONE check: upsert IN_PROGRESS
(which resets `last_chunk_index` to -1, see `upsert`), run the chunks, and
upsert DONE or FAILED (each again with the default `last_chunk = -1`). -/
def ingestRun (failing : Nat → Bool) (nChunks : Nat) (st : LState) : LState :=
  let st1 := upsert st .IN_PROGRESS (-1) none
  let res := ingest_chunks failing nChunks st1
  match res.2 with
  | none => upsert res.1 .DONE (-1) none
  | some e => upsert res.1 .FAILED (-1) (some e)

/-- `ingest_one_file` (`src/retries.py` lines 82-104) for one document. -/
def ingest_one_file (failing : Nat → Bool) (nChunks : Nat) (st : LState) : LState :=
  match st.ledger with
  | some row =>
    if row.status = .DONE then st
    else ingestRun failing nChunks st
  | none => ingestRun failing nChunks (upsert st .PENDING (-1) none)

/-- A fresh document: no ledger row, no recorded invocations. -/
def LState.empty : LState := { ledger := none, invocations := [] }

/-- The scenario of the resumability claim: chunk 6 of a 10-chunk document
fails all its retry attempts; every other chunk succeeds. -/
def chunk6Fails : Nat → Bool := fun idx => idx == 6

end Retries

namespace SqlQuery

/-- One row of the `xml_chunks` table as selected by `BASE_SELECT` in
`src/sql-explain.py` (plus the `is_latest` column used by the
`is_latest = true` filter clause). -/
structure XmlChunk where
  project : String
  version : String
  mpu_name : String
  rg_index : Int
  addr_start : Int
  addr_end : Int
  profile : Option String
  raw_text : String
  is_latest : Bool
deriving DecidableEq, Repr

/-- The `filters` dict accumulated by `SQLQueryBuilder` (`src/sql-explain.py`). -/
structure Filters where
  project : Option String
  version : Option String
  is_latest : Bool
  mpu_name : Option String
  addr_start : Option Int
  addr_end : Option Int
deriving DecidableEq, Repr

/-- A builder with no filters applied. -/
def Filters.empty : Filters :=
  { project := none, version := none, is_latest := false,
    mpu_name := none, addr_start := none, addr_end := none }

/-- `with_project`: stores the lowercased project name. -/
def with_project (f : Filters) (project : String) : Filters :=
  { f with project := some project.toLower }

/-- `with_version`: an explicit version filters on it; `None` sets the
`is_latest` flag instead. -/
def with_version (f : Filters) (version : Option String) : Filters :=
  match version with
  | some v => { f with version := some v }
  | none => { f with is_latest := true }

/-- `with_mpu`. -/
def with_mpu (f : Filters) (mpu_name : Option String) : Filters :=
  match mpu_name with
  | some m => { f with mpu_name := some m }
  | none => f

/-- `with_address`. -/
def with_address (f : Filters) (start finish : Option Int) : Filters :=
  let f1 := match start with
    | some s => { f with addr_start := some s }
    | none => f
  match finish with
  | some e => { f1 with addr_end := some e }
  | none => f1

/-- Row predicate of `_build_base_where` (`src/sql-explain.py` lines
104-126): project equality, version equality or `is_latest = true`, and
mpu name equality, each only when the corresponding filter is present. -/
def baseWhere (f : Filters) (r : XmlChunk) : Bool :=
  (match f.project with
   | some p => r.project == p
   | none => true) &&
  (match f.version with
   | some v => r.version == v
   | none => if f.is_latest then r.is_latest else true) &&
  (match f.mpu_name with
   | some m => r.mpu_name == m
   | none => true)

/-- One result row of the point-address query: the base columns plus the
computed `region_size` and `covers_address` columns of
`POINT_EXPLAIN_SELECT`. -/
structure PointRow where
  row : XmlChunk
  region_size : Int
  covers_address : Bool
deriving DecidableEq, Repr

/-- `ORDER BY region_size ASC, rg_index DESC` as a Boolean total preorder. -/
def pointLe (x y : PointRow) : Bool :=
  decide (x.region_size < y.region_size ∨
    (x.region_size = y.region_size ∧ y.row.rg_index ≤ x.row.rg_index))

/-- The computed columns of `POINT_EXPLAIN_SELECT` for one row:
`region_size = addr_end - addr_start` and
`covers_address = (a BETWEEN addr_start AND addr_end)`. -/
def mkPointRow (a : Int) (r : XmlChunk) : PointRow :=
  { row := r
    region_size := r.addr_end - r.addr_start
    covers_address := decide (r.addr_start ≤ a ∧ a ≤ r.addr_end) }

/-- The point-address query of `SQLQueryBuilder.build` (`src/sql-explain.py`
lines 74-85): rows passing the base filters with
`addr_start <= a AND addr_end >= a`, enriched with the explain columns,
ordered by `region_size ASC, rg_index DESC`, `LIMIT 1`. -/
def pointQuery (table : List XmlChunk) (f : Filters) (a : Int) : Option PointRow :=
  let rows := table.filter (fun r =>
    baseWhere f r && decide (r.addr_start ≤ a) && decide (a ≤ r.addr_end))
  ((rows.map (mkPointRow a)).mergeSort pointLe).head?

/-- One result row of the range query: the base columns plus the computed
`overlap_start`, `overlap_end` and `overlap_size` columns of
`RANGE_EXPLAIN_SELECT` (`src/sql-explain.py` lines 24-33). -/
structure RangeRow where
  row : XmlChunk
  overlap_start : Int
  overlap_end : Int
  overlap_size : Int
deriving DecidableEq, Repr

/-- `ORDER BY overlap_size DESC, rg_index DESC` as a Boolean total preorder. -/
def rangeLe (x y : RangeRow) : Bool :=
  decide (y.overlap_size < x.overlap_size ∨
    (x.overlap_size = y.overlap_size ∧ y.row.rg_index ≤ x.row.rg_index))

/-- The computed columns of `RANGE_EXPLAIN_SELECT` for one row:
`overlap_start = GREATEST(addr_start, rangeStart)`,
`overlap_end = LEAST(addr_end, rangeEnd)` and their difference
`overlap_size`. -/
def mkRangeRow (rangeStart rangeEnd : Int) (r : XmlChunk) : RangeRow :=
  { row := r
    overlap_start := max r.addr_start rangeStart
    overlap_end := min r.addr_end rangeEnd
    overlap_size := min r.addr_end rangeEnd - max r.addr_start rangeStart }

/-- The range-address query of `SQLQueryBuilder.build` (`src/sql-explain.py`
lines 87-97): rows passing the base filters with
`addr_start <= rangeEnd AND addr_end >= rangeStart`, enriched via
`mkRangeRow`, ordered by `overlap_size DESC, rg_index DESC`. -/
def rangeQuery (table : List XmlChunk) (f : Filters) (rangeStart rangeEnd : Int) :
    List RangeRow :=
  let rows := table.filter (fun r =>
    baseWhere f r && decide (r.addr_start ≤ rangeEnd) && decide (rangeStart ≤ r.addr_end))
  (rows.map (mkRangeRow rangeStart rangeEnd)).mergeSort rangeLe

/-- The three shapes of query `SQLQueryBuilder.build` can emit. -/
inductive QueryResult where
  | point (res : Option PointRow)
  | range (res : List RangeRow)
  | plain (res : List XmlChunk)
deriving DecidableEq, Repr

/-- `SQLQueryBuilder.build` dispatch (`src/sql-explain.py` lines 68-100):
point query when only `addr_start` is set, range query when both ends are
set, plain filtered select otherwise. -/
def build (table : List XmlChunk) (f : Filters) : QueryResult :=
  match f.addr_start, f.addr_end with
  | some a, none => .point (pointQuery table f a)
  | some s, some e => .range (rangeQuery table f s e)
  | none, _ => .plain (table.filter (fun r => baseWhere f r))

/-- Concrete fixture: the broad region `[0x1000, 0x3000]` (region index 1)
of spec §8's tie-break example. -/
def sqlRow1 : XmlChunk :=
  { project := "p", version := "v1", mpu_name := "m", rg_index := 1,
    addr_start := 4096, addr_end := 12288, profile := none, raw_text := "broad",
    is_latest := true }

/-- Concrete fixture: the specific region `[0x1800, 0x2000]` (region index 2)
of spec §8's tie-break example. -/
def sqlRow2 : XmlChunk :=
  { project := "p", version := "v1", mpu_name := "m", rg_index := 2,
    addr_start := 6144, addr_end := 8192, profile := none, raw_text := "specific",
    is_latest := true }

/-- The two-region table of spec §8's tie-break example. -/
def sqlTable : List XmlChunk := [sqlRow1, sqlRow2]

end SqlQuery

namespace Ipcat

/-- What the HTTP layer yields on one attempt of
`IPCatalogClient.request` (`src/ipcatClient.py`): either a response with a
status code and body, or a raised `requests.RequestException`. -/
inductive HttpAttempt where
  | status (code : Nat) (body : String)
  | netError (msg : String)
deriving DecidableEq, Repr

/-- The exceptions `request` can propagate. -/
inductive ReqError where
  | authError (msg : String)
  | requestError (msg : String)
  | netError (msg : String)
deriving DecidableEq, Repr

/-- The retry loop of `IPCatalogClient.request` (`src/ipcatClient.py` lines
149-185), with `fuel` iterations of `for attempt in range(1, max_retries+1)`
remaining and `refreshes` counting calls to `TokenManager._refresh_token`
(token refresh itself is modelled as succeeding).  A 401/403 with a token
manager refreshes and `continue`s; without one it raises
`IPCatalogAuthError`, which the `except` clause does not catch.  Other
`>= 400` statuses raise `IPCatalogRequestError`, which is caught and
retried with backoff until the final attempt re-raises.  Falling off the
loop returns Python `None`, modelled as `Except.ok none`. -/
def requestLoop (attempts : Nat → HttpAttempt) (hasTokenManager : Bool)
    (attempt : Nat) (fuel : Nat) (refreshes : Nat) :
    Except ReqError (Option String) × Nat :=
  match fuel with
  | 0 => (.ok none, refreshes)
  | fuel' + 1 =>
    match attempts attempt with
    | .status code body =>
      if code = 401 ∨ code = 403 then
        if hasTokenManager then
          requestLoop attempts hasTokenManager (attempt + 1) fuel' (refreshes + 1)
        else
          (.error (.authError "Unauthorized"), refreshes)
      else if 400 ≤ code then
        if fuel' = 0 then (.error (.requestError body), refreshes)
        else requestLoop attempts hasTokenManager (attempt + 1) fuel' refreshes
      else (.ok (some body), refreshes)
    | .netError msg =>
      if fuel' = 0 then (.error (.netError msg), refreshes)
      else requestLoop attempts hasTokenManager (attempt + 1) fuel' refreshes

/-- `IPCatalogClient.request`: run the loop for `max_retries` attempts.
Returns the outcome together with the number of forced token refreshes. -/
def request (attempts : Nat → HttpAttempt) (max_retries : Nat)
    (hasTokenManager : Bool) : Except ReqError (Option String) × Nat :=
  requestLoop attempts hasTokenManager 1 max_retries 0

/-- A server whose credential check always fails: every attempt gets 401. -/
def always401 : Nat → HttpAttempt := fun _ => .status 401 "denied"

end Ipcat

namespace Orchestrator

/-- Program counter of one caller executing
`PolicyOrchestrator.ensure_ingested` (`src/policyorchestrator.py` lines
25-34): check the Redis existence marker, then (on a miss) fetch and ingest
the document, then set the marker. -/
inductive Pc where
  | checkMarker
  | fetchIngest
  | setMarker
  | finished
deriving DecidableEq, Repr

/-- Shared state: the Redis `ipcat:done:{chip}:{version}` marker for the one
scope under consideration, the number of external document fetches
(`_ingest_chip` invocations), and each caller's program counter. -/
structure GState where
  marker : Bool
  fetchCount : Nat
  pcs : List Pc
deriving DecidableEq, Repr

/-- Execute one atomic action of caller `i` (each `await` point of
`ensure_ingested` is a scheduling point, so the marker check, the
fetch+ingest, and the marker set interleave with other callers). -/
def step (g : GState) (i : Nat) : GState :=
  match g.pcs.get? i with
  | none => g
  | some pc =>
    match pc with
    | .checkMarker =>
      if g.marker then { g with pcs := g.pcs.set i .finished }
      else { g with pcs := g.pcs.set i .fetchIngest }
    | .fetchIngest =>
      { g with fetchCount := g.fetchCount + 1, pcs := g.pcs.set i .setMarker }
    | .setMarker =>
      { g with marker := true, pcs := g.pcs.set i .finished }
    | .finished => g

/-- Run a schedule (a sequence of caller indices, each performing its next
atomic action). -/
def run (g : GState) (sched : List Nat) : GState := sched.foldl step g

/-- `n` callers about to call `ensure_ingested` for the same un-ingested
scope (marker absent, no fetch performed yet). -/
def init (n : Nat) : GState :=
  { marker := false, fetchCount := 0, pcs := List.replicate n .checkMarker }

/-- The fully sequential schedule: each caller runs all three of its actions
to completion before the next caller starts. -/
def seqSched (n : Nat) : List Nat := (List.range n).flatMap (fun i => [i, i, i])

end Orchestrator

/-! ## Theorems -/

namespace Ingestion

theorem lookup_pred_iff (p m : String) (rg : Int) (prof : Option String) (r : PolicyRow) :
    (r.project == p && r.mpu_name == m && r.rg_index == rg &&
      (coalesceEmpty r.profile == coalesceEmpty prof) && r.is_active) = true ↔
    (identKey r = (p, m, rg, coalesceEmpty prof) ∧ r.is_active = true) := by
  simp [identKey, Prod.ext_iff, Bool.and_eq_true, beq_iff_eq, and_assoc]

theorem lookupActive_none_iff (db : DB) (p m : String) (rg : Int) (prof : Option String) :
    lookupActive db p m rg prof = none ↔
    ∀ r ∈ db.policy_chunks, r.is_active = true →
      identKey r ≠ (p, m, rg, coalesceEmpty prof) := by
  unfold lookupActive
  rw [List.find?_eq_none]
  constructor
  · intro h r hr hact hkey
    exact h r hr ((lookup_pred_iff p m rg prof r).mpr ⟨hkey, hact⟩)
  · intro h r hr hp
    obtain ⟨hkey, hact⟩ := (lookup_pred_iff p m rg prof r).mp hp
    exact h r hr hact hkey

theorem lookupActive_some (db : DB) (p m : String) (rg : Int) (prof : Option String)
    (row : PolicyRow) (h : lookupActive db p m rg prof = some row) :
    row ∈ db.policy_chunks ∧ identKey row = (p, m, rg, coalesceEmpty prof) ∧
      row.is_active = true := by
  unfold lookupActive at h
  have h1 := List.find?_some h
  have h2 := List.mem_of_find?_eq_some h
  simp only [lookup_pred_iff] at h1
  exact ⟨h2, h1.1, h1.2⟩

theorem filter_map_sublist {α : Type} (p : α → Bool) (f : α → α)
    (hf : ∀ a, f a = a ∨ p (f a) = false) :
    ∀ l : List α, ((l.map f).filter p).Sublist (l.filter p)
  | [] => by simp
  | a :: l => by
    have ih := filter_map_sublist p f hf l
    simp only [List.map_cons, List.filter_cons]
    rcases hf a with h | h
    · rw [h]
      cases hp : p a
      · simpa [hp] using ih
      · simpa [hp] using List.Sublist.cons₂ a ih
    · rw [h]
      cases hp : p a <;> simp [hp]
      · exact ih
      · exact ih.trans (List.sublist_cons_self a _)

theorem atMostOneActive_deactivate (db : DB) (cid : String)
    (h : atMostOneActive db) : atMostOneActive (deactivateChunk db cid) := by
  refine List.Pairwise.sublist (filter_map_sublist _ _ ?_ db.policy_chunks) h
  intro a
  by_cases hc : a.chunk_id == cid
  · right; simp [hc]
  · left; simp [hc]

theorem atMostOneActive_append (db : DB) (row : PolicyRow)
    (h : atMostOneActive db) (hact : row.is_active = true)
    (hk : ∀ r ∈ db.policy_chunks, r.is_active = true → identKey r ≠ identKey row) :
    atMostOneActive { db with policy_chunks := db.policy_chunks ++ [row] } := by
  unfold atMostOneActive at *
  rw [List.filter_append, List.pairwise_append]
  refine ⟨h, ?_, ?_⟩
  · simp [List.filter, hact]
  · intro a ha b hb
    rw [List.mem_filter] at ha hb
    have hb1 : b = row := List.mem_singleton.mp hb.1
    subst hb1
    exact hk a ha.1 ha.2

theorem identKey_symm : Symmetric (fun a b : PolicyRow => identKey a ≠ identKey b) :=
  fun _ _ h he => h he.symm

theorem noActive_after_deactivate (db : DB) (p m : String) (rg : Int) (prof : Option String)
    (row : PolicyRow) (hinv : atMostOneActive db)
    (hlk : lookupActive db p m rg prof = some row) :
    ∀ r ∈ (deactivateChunk db row.chunk_id).policy_chunks, r.is_active = true →
      identKey r ≠ (p, m, rg, coalesceEmpty prof) := by
  obtain ⟨hmem, hkey, hact⟩ := lookupActive_some db p m rg prof row hlk
  intro r hr hract hkr
  rw [deactivateChunk, List.mem_map] at hr
  obtain ⟨orig, horig, hfo⟩ := hr
  by_cases hc : orig.chunk_id == row.chunk_id
  · rw [if_pos hc] at hfo
    rw [← hfo] at hract
    simp at hract
  · rw [if_neg hc] at hfo
    subst hfo
    have hne : orig ≠ row := by
      intro he
      rw [he] at hc
      simp at hc
    have h1 : orig ∈ db.policy_chunks.filter (fun r => r.is_active) :=
      List.mem_filter.mpr ⟨horig, hract⟩
    have h2 : row ∈ db.policy_chunks.filter (fun r => r.is_active) :=
      List.mem_filter.mpr ⟨hmem, hact⟩
    exact (List.Pairwise.forall identKey_symm hinv h1 h2 hne) (hkr.trans hkey.symm)

/-- C1 (amended): every supersession-engine operation preserves the
invariant "at most one active `policy_chunks` row per identity key", both
in the final state and at every intermediate committed state; the
atomicity half of the original claim is refuted by `C1_counterexample`
(with autocommit, the deactivate and the insert commit separately, so an
intermediate state with zero active rows for the identity is durably
observable). -/
theorem C1_theorem (db : DB) (p m : String) (prtn : Prtn) (cid : String)
    (h : atMostOneActive db) :
    atMostOneActive (ingest_prtn db p m prtn cid).2 ∧
    ∀ s ∈ ingest_prtn_commits db p m prtn cid, atMostOneActive s := by
  cases hlk : lookupActive db p m prtn.rg_index prtn.profile with
  | none =>
    have hk := (lookupActive_none_iff db p m prtn.rg_index prtn.profile).mp hlk
    have hins : atMostOneActive
        (insertPolicyRowOnly db p m prtn (sha256 prtn.raw_xml) cid none) := by
      apply atMostOneActive_append db _ h rfl
      intro r hr hract
      exact hk r hr hract
    constructor
    · simp only [ingest_prtn, hlk]
      exact hins
    · intro s hs
      simp only [ingest_prtn_commits, hlk, List.mem_cons, List.mem_singleton] at hs
      rcases hs with hs | hs | hs
      · rw [hs]; exact hins
      · rw [hs]; exact hins
      · simp at hs
  | some row =>
    by_cases hh : row.xml_hash == sha256 prtn.raw_xml
    · constructor
      · simp only [ingest_prtn, hlk, hh]
        exact h
      · intro s hs
        simp only [ingest_prtn_commits, hlk, hh] at hs
        simp at hs
    · have hd : atMostOneActive (deactivateChunk db row.chunk_id) :=
        atMostOneActive_deactivate db row.chunk_id h
      have hnk := noActive_after_deactivate db p m prtn.rg_index prtn.profile row h hlk
      have hins : atMostOneActive
          (insertPolicyRowOnly
            (delete_weaviate_vector (deactivateChunk db row.chunk_id) row.chunk_id)
            p m prtn (sha256 prtn.raw_xml) cid (some row.chunk_id)) := by
        apply atMostOneActive_append _ _ hd rfl
        intro r hr hract
        exact hnk r hr hract
      constructor
      · simp only [ingest_prtn, hlk, hh]
        exact hins
      · intro s hs
        simp only [ingest_prtn_commits, hlk, hh, Bool.false_eq_true, if_false,
          List.mem_cons, List.mem_singleton] at hs
        rcases hs with hs | hs | hs | hs | hs
        · rw [hs]; exact hd
        · rw [hs]; exact hd
        · rw [hs]; exact hins
        · rw [hs]; exact hins
        · simp at hs

/-- C1 counterexample: the supersede step is NOT atomic from the caller's
perspective.  On a store holding one active record of the region's
identity, re-ingesting the region with changed content commits an
intermediate state (after the deactivate, before the insert) that is
neither the initial nor the final state — refuting the original claim. -/
theorem C1_counterexample : ¬ callerAtomic ceDb1 "p" "m" cePrtnReordered "id2" := by decide

/-- Witness for `C1_theorem` at a concrete input. -/
theorem C1_witness :
    atMostOneActive (ingest_prtn ceDb1 "p" "m" cePrtnReordered "id2").2 ∧
    ∀ s ∈ ingest_prtn_commits ceDb1 "p" "m" cePrtnReordered "id2", atMostOneActive s :=
  C1_theorem ceDb1 "p" "m" cePrtnReordered "id2" (by decide)

theorem deactivate_marks_inactive (db : DB) (cid : String) :
    ∀ r ∈ (deactivateChunk db cid).policy_chunks, r.chunk_id = cid → r.is_active = false := by
  intro r hr hcid
  rw [deactivateChunk] at hr
  simp only [List.mem_map] at hr
  obtain ⟨orig, _, hfo⟩ := hr
  by_cases hc : orig.chunk_id == cid
  · rw [if_pos hc] at hfo
    rw [← hfo]
  · rw [if_neg hc] at hfo
    subst hfo
    exact absurd hcid (by simpa using hc)

/-- C2: `ingest_prtn` realizes exactly the three supersession outcomes.
With no active record for the region's identity the region is inserted as
a new active row (INSERTED_NEW); with an active record of equal content
hash nothing changes (SKIPPED_NO_CHANGE); with an active record of
different content hash the existing record is deactivated, the new row is
inserted active with `supersedes_chunk_id` pointing at it, and the
external-index (Weaviate) entry stored under the old record's reused id is
evicted (SUPERSEDED). -/
theorem C2_theorem (db : DB) (p m : String) (prtn : Prtn) (cid : String) :
    (lookupActive db p m prtn.rg_index prtn.profile = none →
      (ingest_prtn db p m prtn cid).1 = Outcome.INSERTED_NEW ∧
      (ingest_prtn db p m prtn cid).2.policy_chunks =
        db.policy_chunks ++ [newPolicyRow p m prtn (sha256 prtn.raw_xml) cid none] ∧
      (newPolicyRow p m prtn (sha256 prtn.raw_xml) cid none).is_active = true ∧
      (newPolicyRow p m prtn (sha256 prtn.raw_xml) cid none).supersedes_chunk_id = none) ∧
    (∀ row, lookupActive db p m prtn.rg_index prtn.profile = some row →
      (row.xml_hash = sha256 prtn.raw_xml →
        (ingest_prtn db p m prtn cid).1 = Outcome.SKIPPED_NO_CHANGE ∧
        (ingest_prtn db p m prtn cid).2 = db) ∧
      (row.xml_hash ≠ sha256 prtn.raw_xml →
        (ingest_prtn db p m prtn cid).1 = Outcome.SUPERSEDED ∧
        (∀ r ∈ (deactivateChunk db row.chunk_id).policy_chunks,
          r.chunk_id = row.chunk_id → r.is_active = false) ∧
        (ingest_prtn db p m prtn cid).2.policy_chunks =
          (deactivateChunk db row.chunk_id).policy_chunks ++
            [newPolicyRow p m prtn (sha256 prtn.raw_xml) cid (some row.chunk_id)] ∧
        (newPolicyRow p m prtn (sha256 prtn.raw_xml) cid (some row.chunk_id)).is_active = true ∧
        (newPolicyRow p m prtn (sha256 prtn.raw_xml) cid
            (some row.chunk_id)).supersedes_chunk_id = some row.chunk_id ∧
        (newPolicyRow p m prtn (sha256 prtn.raw_xml) cid
            (some row.chunk_id)).weaviate_object_id = cid ∧
        (ingest_prtn db p m prtn cid).2.weaviate =
          (db.weaviate.filter (fun kv => kv.1 ≠ row.chunk_id)) ++
            [(cid, newWeaviateObj p m prtn)])) := by
  constructor
  · intro hlk
    refine ⟨?_, ?_, rfl, rfl⟩
    · simp [ingest_prtn, hlk]
    · simp [ingest_prtn, hlk, insert_new_policy, insertPolicyRowOnly, insert_weaviate_vector]
  · intro row hlk
    constructor
    · intro hh
      have hh' : (row.xml_hash == sha256 prtn.raw_xml) = true := beq_iff_eq.mpr hh
      constructor <;> simp [ingest_prtn, hlk, hh']
    · intro hh
      have hh' : (row.xml_hash == sha256 prtn.raw_xml) = false := by
        simpa using hh
      refine ⟨?_, deactivate_marks_inactive db row.chunk_id, ?_, rfl, rfl, rfl, ?_⟩
      · simp [ingest_prtn, hlk, hh']
      · simp [ingest_prtn, hlk, hh', insert_new_policy, insertPolicyRowOnly,
          insert_weaviate_vector, delete_weaviate_vector, deactivateChunk]
      · simp [ingest_prtn, hlk, hh', insert_new_policy, insertPolicyRowOnly,
          insert_weaviate_vector, delete_weaviate_vector, deactivateChunk]

/-- Witness for `C2_theorem`: first-version insertion on the empty store. -/
theorem C2_witness :
    (ingest_prtn DB.empty "p" "m" cePrtn1 "id1").1 = Outcome.INSERTED_NEW ∧
    (ingest_prtn DB.empty "p" "m" cePrtn1 "id1").2.policy_chunks =
      DB.empty.policy_chunks ++
        [newPolicyRow "p" "m" cePrtn1 (sha256 cePrtn1.raw_xml) "id1" none] ∧
    (newPolicyRow "p" "m" cePrtn1 (sha256 cePrtn1.raw_xml) "id1" none).is_active = true ∧
    (newPolicyRow "p" "m" cePrtn1 (sha256 cePrtn1.raw_xml) "id1" none).supersedes_chunk_id =
      none :=
  (C2_theorem DB.empty "p" "m" cePrtn1 "id1").1 (by decide)

theorem sha256_inj (s t : String) : sha256 s = sha256 t ↔ s = t := Iff.rfl

theorem ingest_outcome_congr (db : DB) (p m cid : String) (p1 p2 : Prtn)
    (h1 : p1.rg_index = p2.rg_index) (h2 : p1.profile = p2.profile)
    (h3 : p1.raw_xml = p2.raw_xml) :
    (ingest_prtn db p m p1 cid).1 = (ingest_prtn db p m p2 cid).1 := by
  cases hlk : lookupActive db p m p2.rg_index p2.profile with
  | none => simp [ingest_prtn, h1, h2, h3, hlk]
  | some row =>
    by_cases hh : row.xml_hash == sha256 p2.raw_xml <;>
      simp [ingest_prtn, h1, h2, h3, hlk, hh]

theorem ingest_supersedes_of_hash_ne (db : DB) (p m cid : String) (prtn : Prtn)
    (row : PolicyRow) (hlk : lookupActive db p m prtn.rg_index prtn.profile = some row)
    (hh : row.xml_hash ≠ sha256 prtn.raw_xml) :
    (ingest_prtn db p m prtn cid).1 = Outcome.SUPERSEDED := by
  have hh' : (row.xml_hash == sha256 prtn.raw_xml) = false := by simpa using hh
  simp [ingest_prtn, hlk, hh']

/-- C3 (amended): the active-record lookup key is `(project, unit,
regionIndex, profile)` only — the start and end addresses are not part of
it.  The supersession outcome is invariant under any change that keeps
`rg_index`, `profile` and the raw payload (first conjunct), and a region
whose addresses moved (so its payload, hence content hash, changed) still
matches the previously active record and is SUPERSEDED — not
INSERTED_NEW, and the old record does not stay active (second conjunct,
`C3_counterexample`). -/
theorem C3_theorem :
    (∀ (db : DB) (p m cid : String) (p1 p2 : Prtn),
      p1.rg_index = p2.rg_index → p1.profile = p2.profile → p1.raw_xml = p2.raw_xml →
      (ingest_prtn db p m p1 cid).1 = (ingest_prtn db p m p2 cid).1) ∧
    (∀ (db : DB) (p m cid : String) (prtn : Prtn) (row : PolicyRow),
      lookupActive db p m prtn.rg_index prtn.profile = some row →
      row.xml_hash ≠ sha256 prtn.raw_xml →
      (ingest_prtn db p m prtn cid).1 = Outcome.SUPERSEDED) :=
  ⟨fun db p m cid p1 p2 h1 h2 h3 => ingest_outcome_congr db p m cid p1 p2 h1 h2 h3,
   fun db p m cid prtn row hlk hh => ingest_supersedes_of_hash_ne db p m cid prtn row hlk hh⟩

/-- C3 counterexample: moving `cePrtn1`'s start address to `0x1500`
(`cePrtnMoved`) yields SUPERSEDED, not the claimed INSERTED_NEW, and the
old record `id1` is deactivated rather than left active as an orphan. -/
theorem C3_counterexample :
    (ingest_prtn ceDb1 "p" "m" cePrtnMoved "id2").1 = Outcome.SUPERSEDED ∧
    (ingest_prtn ceDb1 "p" "m" cePrtnMoved "id2").1 ≠ Outcome.INSERTED_NEW ∧
    ∀ r ∈ (ingest_prtn ceDb1 "p" "m" cePrtnMoved "id2").2.policy_chunks,
      r.chunk_id = "id1" → r.is_active = false := by decide

/-- Witness for `C3_theorem` at concrete inputs. -/
theorem C3_witness :
    ((ingest_prtn ceDb1 "p" "m" { cePrtn1 with start_hex := some "0x1500" } "id2").1 =
      (ingest_prtn ceDb1 "p" "m" cePrtn1 "id2").1) ∧
    (ingest_prtn ceDb1 "p" "m" cePrtnMoved "id2").1 = Outcome.SUPERSEDED :=
  ⟨C3_theorem.1 ceDb1 "p" "m" "id2" { cePrtn1 with start_hex := some "0x1500" } cePrtn1
      rfl rfl rfl,
   C3_theorem.2 ceDb1 "p" "m" "id2" cePrtnMoved
      (newPolicyRow "p" "m" cePrtn1 (sha256 cePrtn1.raw_xml) "id1" none)
      (by decide) (by decide)⟩

/-- C4 (amended): the content hash is the digest of the raw XML
serialization with no canonicalization — the parsed (normalized) domain
lists do not enter it at all (first conjunct), so a re-ingested region
whose raw payload differs from the active record's hashed payload in any
way, including a mere reordering of its domain lists, is SUPERSEDED
rather than SKIPPED_NO_CHANGE (second conjunct, `C4_counterexample`). -/
theorem C4_theorem :
    (∀ (db : DB) (p m cid : String) (prtn : Prtn) (rd wd rv wv : List String),
      (ingest_prtn db p m
        { prtn with rdomains := rd, wdomains := wd, rvmids := rv, wvmids := wv } cid).1 =
      (ingest_prtn db p m prtn cid).1) ∧
    (∀ (db : DB) (p m cid : String) (prtn : Prtn) (row : PolicyRow) (s : String),
      lookupActive db p m prtn.rg_index prtn.profile = some row →
      row.xml_hash = sha256 s → s ≠ prtn.raw_xml →
      (ingest_prtn db p m prtn cid).1 = Outcome.SUPERSEDED) :=
  ⟨fun db p m cid prtn rd wd rv wv =>
      ingest_outcome_congr db p m cid _ prtn rfl rfl rfl,
   fun db p m cid prtn row s hlk hs hne =>
      ingest_supersedes_of_hash_ne db p m cid prtn row hlk
        (by rw [hs]; exact fun he => hne ((sha256_inj s prtn.raw_xml).mp he))⟩

/-- C4 counterexample: reordering the read-domain list in the source
document (`cePrtnReordered`) changes the raw XML, hence the content hash,
and re-ingestion yields SUPERSEDED — not the claimed equal hashes and
SKIPPED_NO_CHANGE. -/
theorem C4_counterexample :
    sha256 cePrtnReordered.raw_xml ≠ sha256 cePrtn1.raw_xml ∧
    (ingest_prtn ceDb1 "p" "m" cePrtnReordered "id2").1 = Outcome.SUPERSEDED ∧
    (ingest_prtn ceDb1 "p" "m" cePrtnReordered "id2").1 ≠ Outcome.SKIPPED_NO_CHANGE := by
  decide

/-- Witness for `C4_theorem` at concrete inputs. -/
theorem C4_witness :
    ((ingest_prtn ceDb1 "p" "m"
        { cePrtn1 with rdomains := ["modem", "apps"], wdomains := ["apps"], rvmids := [], wvmids := [] } "id2").1 =
      (ingest_prtn ceDb1 "p" "m" cePrtn1 "id2").1) ∧
    (ingest_prtn ceDb1 "p" "m" cePrtnReordered "id2").1 = Outcome.SUPERSEDED :=
  ⟨C4_theorem.1 ceDb1 "p" "m" "id2" cePrtn1 ["modem", "apps"] ["apps"] [] [],
   C4_theorem.2 ceDb1 "p" "m" "id2" cePrtnReordered
      (newPolicyRow "p" "m" cePrtn1 (sha256 cePrtn1.raw_xml) "id1" none)
      cePrtn1.raw_xml (by decide) (by decide) (by decide)⟩

end Ingestion

namespace Retries

/-- C5: a document of 10 chunks whose chunk 6 exhausts all retry attempts.
The run stops at chunk 6 and records FAILED with the last error — but the
status upserts use the Python default `last_chunk=-1`, so both the
IN_PROGRESS write at the start of a run and the FAILED write at its end
RESET `last_chunk_index` to `-1` instead of leaving it at the last
committed chunk (5); consequently a second run re-invokes ingestion for
chunks 0-5 before failing at 6 again, contradicting the claimed
resume-after-`lastCommittedChunk` behavior (and the code's own
"RESUME HERE" logic, which the reset makes vacuous). -/
theorem C5_theorem :
    (ingest_one_file chunk6Fails 10 LState.empty).ledger =
      some { status := Status.FAILED, last_chunk_index := -1, error := some "chunk 6 failed" } ∧
    (ingest_one_file chunk6Fails 10 LState.empty).invocations = [0, 1, 2, 3, 4, 5, 6] ∧
    (ingest_one_file chunk6Fails 10 (ingest_one_file chunk6Fails 10 LState.empty)).invocations =
      [0, 1, 2, 3, 4, 5, 6, 0, 1, 2, 3, 4, 5, 6] := by decide

theorem retryAux_pos {α : Type} (op : Op α) :
    ∀ (fuel attempt : Nat), 1 ≤ fuel →
      1 ≤ (retryAux op attempt fuel).2 ∧ (retryAux op attempt fuel).1 ≠ Except.ok none := by
  intro fuel
  induction fuel with
  | zero => intro attempt h; omega
  | succ n ih =>
    intro attempt _
    unfold retryAux
    cases op attempt with
    | ok a => simp
    | error e =>
      cases n with
      | zero => simp
      | succ k =>
        have h := ih (attempt + 1) (by omega)
        simp only [Nat.succ_ne_zero, if_false]
        exact ⟨by omega, h.2⟩

/-- C10: `retry(op, retries=n)` with `n <= 0` runs zero loop iterations —
it returns Python `None` (modelled `Except.ok none`) without invoking the
operation and without raising; with `n >= 1` the operation is invoked at
least once and the call never silently returns `None` (it returns the
operation's value or re-raises the last error). -/
theorem C10_theorem {α : Type} (op : Op α) (retries : Int) :
    (retries ≤ 0 → retry op retries = (Except.ok none, 0)) ∧
    (1 ≤ retries →
      1 ≤ (retry op retries).2 ∧ (retry op retries).1 ≠ Except.ok none) := by
  constructor
  · intro h
    unfold retry
    rw [Int.toNat_of_nonpos h]
    rfl
  · intro h
    unfold retry
    exact retryAux_pos op retries.toNat 1 (by omega)

/-- Witness for `C10_theorem` at `retries = -3` and `retries = 3`. -/
theorem C10_witness :
    (retry (fun _ => Except.error "boom" : Op Nat) (-3) = (Except.ok none, 0)) ∧
    (1 ≤ (retry (fun _ => Except.error "boom" : Op Nat) 3).2 ∧
      (retry (fun _ => Except.error "boom" : Op Nat) 3).1 ≠ Except.ok none) :=
  ⟨(C10_theorem (fun _ => Except.error "boom" : Op Nat) (-3)).1 (by decide),
   (C10_theorem (fun _ => Except.error "boom" : Op Nat) 3).2 (by decide)⟩

end Retries

namespace Ipcat

theorem requestLoop_always401 :
    ∀ (fuel attempt refreshes : Nat),
      requestLoop always401 true attempt fuel refreshes = (.ok none, refreshes + fuel) := by
  intro fuel
  induction fuel with
  | zero => intro attempt refreshes; simp [requestLoop]
  | succ n ih =>
    intro attempt refreshes
    unfold requestLoop
    simp [always401, ih]
    omega

/-- C8: with a token manager configured and a server that answers 401 to
every attempt, `request` performs one forced token refresh PER attempt
(`max_retries` of them in total, not exactly one), never raises, and falls
off the retry loop returning Python `None` — contradicting the claimed
"one refresh, one retry, second failure fatal and propagated" behavior
and the claim that the call never silently returns nothing (and the
code's own "force token refresh once" comment). -/
theorem C8_theorem (n : Nat) : request always401 n true = (.ok none, n) := by
  unfold request
  rw [requestLoop_always401 n 1 0]
  simp

end Ipcat

namespace Orchestrator

/-- C9 counterexample: two concurrent `ensure_ingested` callers for the
same un-ingested scope, interleaved so both pass the marker check before
either sets it, perform two document fetches/ingestions — not the claimed
exactly one. -/
theorem C9_counterexample :
    (run (init 2) [0, 1, 0, 0, 1, 1]).fetchCount = 2 ∧
    (run (init 2) [0, 1, 0, 0, 1, 1]).fetchCount ≠ 1 := by decide

theorem step_no_fetch (g : GState) (i : Nat) (hm : g.marker = true)
    (hp : ∀ pc ∈ g.pcs, pc = Pc.checkMarker ∨ pc = Pc.finished) :
    (step g i).marker = true ∧ (step g i).fetchCount = g.fetchCount ∧
    ∀ pc ∈ (step g i).pcs, pc = Pc.checkMarker ∨ pc = Pc.finished := by
  unfold step
  cases hg : g.pcs.get? i with
  | none => exact ⟨hm, rfl, hp⟩
  | some pc =>
    have hmem : pc ∈ g.pcs := List.get?_mem hg
    rcases hp pc hmem with h | h <;> subst h
    · rw [if_pos hm]
      refine ⟨hm, rfl, ?_⟩
      intro q hq
      rcases List.mem_or_eq_of_mem_set hq with hq | hq
      · exact hp q hq
      · right; exact hq
    · exact ⟨hm, rfl, hp⟩

theorem run_no_fetch (sched : List Nat) :
    ∀ g : GState, g.marker = true →
      (∀ pc ∈ g.pcs, pc = Pc.checkMarker ∨ pc = Pc.finished) →
      (run g sched).fetchCount = g.fetchCount ∧ (run g sched).marker = true := by
  induction sched with
  | nil => intro g hm _; exact ⟨rfl, hm⟩
  | cons i rest ih =>
    intro g hm hp
    have hs := step_no_fetch g i hm hp
    have hr := ih (step g i) hs.1 hs.2.2
    exact ⟨hr.1.trans hs.2.1, hr.2⟩

/-- C9 (amended): `ensure_ingested` has no single-flight guard — whether
N concurrent callers trigger one fetch depends on the interleaving
(`C9_counterexample` exhibits two fetches).  Exactly one fetch IS
guaranteed when the callers run sequentially: the first caller fetches,
ingests and sets the Redis marker, and every later caller's existence
check then short-circuits. -/
theorem C9_theorem (m : Nat) :
    (run (init (m + 1)) (seqSched (m + 1))).fetchCount = 1 ∧
    (run (init (m + 1)) (seqSched (m + 1))).marker = true := by
  have hsched : seqSched (m + 1) =
      0 :: 0 :: 0 :: ((List.range m).map Nat.succ).flatMap (fun i => [i, i, i]) := by
    rw [seqSched, List.range_succ_eq_map]
    simp [List.flatMap_cons, List.map_map]
  have hinit : init (m + 1) = { marker := false, fetchCount := 0, pcs := Pc.checkMarker :: List.replicate m Pc.checkMarker } := by
    simp [init, List.replicate_succ]
  rw [hsched, hinit]
  have h3 : run { marker := false, fetchCount := 0, pcs := Pc.checkMarker :: List.replicate m Pc.checkMarker } (0 :: 0 :: 0 :: ((List.range m).map Nat.succ).flatMap (fun i => [i, i, i])) = run { marker := true, fetchCount := 1, pcs := Pc.finished :: List.replicate m Pc.checkMarker } (((List.range m).map Nat.succ).flatMap (fun i => [i, i, i])) := by
    simp [run, step]
  rw [h3]
  have hr := run_no_fetch (((List.range m).map Nat.succ).flatMap (fun i => [i, i, i]))
    { marker := true, fetchCount := 1, pcs := Pc.finished :: List.replicate m Pc.checkMarker }
    rfl ?hpcs
  case hpcs =>
    intro pc hpc
    rcases List.mem_cons.mp hpc with h | h
    · right; exact h
    · left; exact (List.eq_of_mem_replicate h)
  exact ⟨hr.1, hr.2⟩

end Orchestrator

namespace SqlQuery

theorem pointLe_trans (a b c : PointRow) (h1 : pointLe a b) (h2 : pointLe b c) :
    pointLe a c := by
  simp only [pointLe, decide_eq_true_eq] at *
  omega

theorem pointLe_total (a b : PointRow) : pointLe a b || pointLe b a := by
  simp only [pointLe, Bool.or_eq_true, decide_eq_true_eq]
  omega

theorem rangeLe_trans (a b c : RangeRow) (h1 : rangeLe a b) (h2 : rangeLe b c) :
    rangeLe a c := by
  simp only [rangeLe, decide_eq_true_eq] at *
  omega

theorem rangeLe_total (a b : RangeRow) : rangeLe a b || rangeLe b a := by
  simp only [rangeLe, Bool.or_eq_true, decide_eq_true_eq]
  omega

theorem head?_mergeSort_forall_le {α : Type} (le : α → α → Bool)
    (htrans : ∀ a b c, le a b → le b c → le a c) (htotal : ∀ a b, le a b || le b a)
    (l : List α) (x : α) (h : (l.mergeSort le).head? = some x) :
    x ∈ l ∧ ∀ y ∈ l, le x y := by
  obtain ⟨t, ht⟩ := List.head?_eq_some_iff.mp h
  have hperm := List.mergeSort_perm l le
  constructor
  · exact hperm.mem_iff.mp (ht ▸ List.mem_cons_self x t)
  · intro y hy
    have hy2 : y ∈ l.mergeSort le := hperm.mem_iff.mpr hy
    rw [ht] at hy2
    rcases List.mem_cons.mp hy2 with he | htail
    · subst he
      have := htotal y y
      simpa using this
    · have hsorted := List.sorted_mergeSort htrans htotal l
      rw [ht] at hsorted
      exact (List.pairwise_cons.mp hsorted).1 y htail

theorem head?_mergeSort_none {α : Type} (le : α → α → Bool) (l : List α)
    (h : (l.mergeSort le).head? = none) : l = [] := by
  rw [List.head?_eq_none_iff] at h
  exact ((List.mergeSort_perm l le).symm.trans (h ▸ List.Perm.refl _)).eq_nil

/-- C6: the point-address query returns at most one region (it is an
`Option`); when it returns one, that region passes the base
project/version/unit filters and covers the address
(`addr_start <= a <= addr_end`), its `region_size` column is
`addr_end - addr_start`, and it is optimal among ALL covering candidate
rows: strictly smaller extent, or equal extent and a region index at
least as high.  When it returns none, no row passes the filters and
covers the address. -/
theorem C6_theorem (table : List XmlChunk) (f : Filters) (a : Int) :
    (∀ pr, pointQuery table f a = some pr →
      pr.row ∈ table ∧ baseWhere f pr.row = true ∧
      pr.row.addr_start ≤ a ∧ a ≤ pr.row.addr_end ∧
      pr.region_size = pr.row.addr_end - pr.row.addr_start ∧
      pr.covers_address = true ∧
      (∀ r ∈ table, baseWhere f r = true → r.addr_start ≤ a → a ≤ r.addr_end →
        pr.row.addr_end - pr.row.addr_start < r.addr_end - r.addr_start ∨
        (pr.row.addr_end - pr.row.addr_start = r.addr_end - r.addr_start ∧
          r.rg_index ≤ pr.row.rg_index))) ∧
    (pointQuery table f a = none →
      ∀ r ∈ table, ¬(baseWhere f r = true ∧ r.addr_start ≤ a ∧ a ≤ r.addr_end)) := by
  constructor
  · intro pr hpr
    unfold pointQuery at hpr
    obtain ⟨hmem, hmin⟩ := head?_mergeSort_forall_le _ pointLe_trans pointLe_total _ pr hpr
    obtain ⟨r0, hr0, henr⟩ := List.mem_map.mp hmem
    obtain ⟨hr0t, hr0p⟩ := List.mem_filter.mp hr0
    simp only [Bool.and_eq_true, decide_eq_true_eq] at hr0p
    obtain ⟨⟨hbase, hs⟩, he⟩ := hr0p
    subst henr
    refine ⟨hr0t, hbase, hs, he, rfl, by simp [mkPointRow, hs, he], ?_⟩
    intro r hrt hrb hrs hre
    have hrf : r ∈ table.filter (fun r =>
        baseWhere f r && decide (r.addr_start ≤ a) && decide (a ≤ r.addr_end)) :=
      List.mem_filter.mpr ⟨hrt, by simp [hrb, hrs, hre]⟩
    have hle := hmin _ (List.mem_map_of_mem _ hrf)
    simp only [pointLe, decide_eq_true_eq] at hle
    exact hle
  · intro hn r hrt hcond
    unfold pointQuery at hn
    have hempty := head?_mergeSort_none _ _ hn
    obtain ⟨hb, hs, he⟩ := hcond
    have hrf : r ∈ table.filter (fun r =>
        baseWhere f r && decide (r.addr_start ≤ a) && decide (a ≤ r.addr_end)) :=
      List.mem_filter.mpr ⟨hrt, by simp [hb, hs, he]⟩
    have hcontra : mkPointRow a r ∈ ([] : List PointRow) :=
      hempty ▸ List.mem_map_of_mem _ hrf
    exact absurd hcontra (List.not_mem_nil _)

unseal List.merge List.mergeSort in
/-- Witness for `C6_theorem`: spec §8's tie-break example — querying
address `0x1900` against `[0x1000,0x3000]` (index 1) and
`[0x1800,0x2000]` (index 2) selects the second, smaller region. -/
theorem C6_witness :
    (mkPointRow 6400 sqlRow2).row ∈ sqlTable ∧
    (mkPointRow 6400 sqlRow2).row.addr_start ≤ 6400 ∧
    (6400 : Int) ≤ (mkPointRow 6400 sqlRow2).row.addr_end ∧
    (mkPointRow 6400 sqlRow2).row.rg_index = 2 := by
  have h := (C6_theorem sqlTable Filters.empty 6400).1 (mkPointRow 6400 sqlRow2) (by decide)
  exact ⟨h.1, h.2.2.1, h.2.2.2.1, by decide⟩

/-- C7: the range query returns exactly the rows passing the base filters
with `addr_start <= rangeEnd` and `addr_end >= rangeStart` (as a
permutation of that filtered set); every result carries
`overlap_start = max(addr_start, rangeStart)`,
`overlap_end = min(addr_end, rangeEnd)` and their difference
`overlap_size`; and the result list is ordered by overlap size
descending, ties broken by higher region index. -/
theorem C7_theorem (table : List XmlChunk) (f : Filters) (s e : Int) :
    ((rangeQuery table f s e).map RangeRow.row).Perm
      (table.filter (fun r =>
        baseWhere f r && decide (r.addr_start ≤ e) && decide (s ≤ r.addr_end))) ∧
    (∀ x ∈ rangeQuery table f s e,
      x.row ∈ table ∧ baseWhere f x.row = true ∧
      x.row.addr_start ≤ e ∧ s ≤ x.row.addr_end ∧
      x.overlap_start = max x.row.addr_start s ∧
      x.overlap_end = min x.row.addr_end e ∧
      x.overlap_size = x.overlap_end - x.overlap_start) ∧
    (rangeQuery table f s e).Pairwise (fun x y =>
      y.overlap_size < x.overlap_size ∨
      (x.overlap_size = y.overlap_size ∧ y.row.rg_index ≤ x.row.rg_index)) := by
  refine ⟨?_, ?_, ?_⟩
  · unfold rangeQuery
    refine ((List.mergeSort_perm _ _).map RangeRow.row).trans (List.Perm.of_eq ?_)
    rw [List.map_map]
    exact List.map_id _
  · intro x hx
    unfold rangeQuery at hx
    have hmem : x ∈ (table.filter (fun r =>
        baseWhere f r && decide (r.addr_start ≤ e) && decide (s ≤ r.addr_end))).map
        (mkRangeRow s e) :=
      (List.mergeSort_perm _ _).mem_iff.mp hx
    obtain ⟨r0, hr0, henr⟩ := List.mem_map.mp hmem
    obtain ⟨hr0t, hr0p⟩ := List.mem_filter.mp hr0
    simp only [Bool.and_eq_true, decide_eq_true_eq] at hr0p
    obtain ⟨⟨hbase, hs⟩, he⟩ := hr0p
    subst henr
    exact ⟨hr0t, hbase, hs, he, rfl, rfl, rfl⟩
  · unfold rangeQuery
    have hsorted := List.sorted_mergeSort rangeLe_trans rangeLe_total
      ((table.filter (fun r =>
        baseWhere f r && decide (r.addr_start ≤ e) && decide (s ≤ r.addr_end))).map
        (mkRangeRow s e))
    refine hsorted.imp ?_
    intro x y h
    simpa [rangeLe, decide_eq_true_eq] using h

unseal List.merge List.mergeSort in
/-- Witness for `C7_theorem`: the range `[0x1900, 0x2800]` against the
two-region fixture; the broad region is a member of the result. -/
theorem C7_witness :
    sqlRow1 ∈ sqlTable ∧ baseWhere Filters.empty sqlRow1 = true ∧
    sqlRow1.addr_start ≤ 10240 ∧ (6400 : Int) ≤ sqlRow1.addr_end := by
  have h := (C7_theorem sqlTable Filters.empty 6400 10240).2.1
    (mkRangeRow 6400 10240 sqlRow1) (by decide)
  exact ⟨h.1, h.2.1, h.2.2.1, h.2.2.2.1⟩

end SqlQuery
